import Mathlib

/-!
Verification of the conversation classification and search core of a read-only
chat-history CLI (Go package `beeper`), against its natural-language
specification.  Go code is shallowly embedded: Go strings are Lean `String`
manipulated through explicit ASCII-level helpers mirroring the `strings` /
`strconv` standard-library calls the source makes, `sql.NullString` /
`sql.NullInt64` become `Option String` / `Option Int`, `time.Time` becomes
`Option Int` (milliseconds since the Unix epoch, `none` for Go's zero time),
`time.Duration` becomes `Int` milliseconds, and SQL queries over the SQLite
store become pure functions over lists of row records.
-/

namespace BeeperCLI

/-- Models Go `unicode.IsSpace` restricted to the ASCII whitespace characters
(space, tab, newline, carriage return, vertical tab, form feed); the source
only ever trims around identifiers, numbers and human names, for which the
additional Unicode space code points never occur. -/
def isGoSpace (c : Char) : Bool :=
  c = ' ' || c = '\t' || c = '\n' || c = '\r' || c = Char.ofNat 11 || c = Char.ofNat 12

/-- Models Go `strings.TrimSpace` (ASCII whitespace, see `isGoSpace`). -/
def goTrim (s : String) : String :=
  String.mk (((s.toList.dropWhile isGoSpace).reverse.dropWhile isGoSpace).reverse)

/-- Models Go `unicode.ToLower` on the ASCII range, the only range exercised by
the source's case-insensitive comparisons (tag names, error substrings, the
"ts" prefix). -/
def goLowerChar (c : Char) : Char :=
  if 'A' ≤ c && c ≤ 'Z' then Char.ofNat (c.toNat + 32) else c

/-- Models Go `strings.ToLower` (ASCII, see `goLowerChar`). -/
def goToLower (s : String) : String :=
  String.mk (s.toList.map goLowerChar)

/-- Models Go `unicode.ToUpper` on the ASCII range. -/
def goUpperChar (c : Char) : Char :=
  if 'a' ≤ c && c ≤ 'z' then Char.ofNat (c.toNat - 32) else c

/-- Models Go `strings.ToUpper` (ASCII, see `goUpperChar`). -/
def goToUpper (s : String) : String :=
  String.mk (s.toList.map goUpperChar)

/-- Character-list prefix test used to model `strings.HasPrefix` and
`strings.Contains`. -/
def charsPrefix : List Char → List Char → Bool
  | [], _ => true
  | _ :: _, [] => false
  | a :: as, b :: bs => a = b && charsPrefix as bs

/-- Character-list infix test: does `needle` occur contiguously in the
haystack? -/
def charsInfix (needle : List Char) : List Char → Bool
  | [] => charsPrefix needle []
  | h :: t => charsPrefix needle (h :: t) || charsInfix needle t

/-- Models Go `strings.HasPrefix s pre`. -/
def goStartsWith (s pre : String) : Bool :=
  charsPrefix pre.toList s.toList

/-- Models Go `strings.Contains s sub`. -/
def goContains (s sub : String) : Bool :=
  charsInfix sub.toList s.toList

/-- Models the Go byte-slice expression `s[n:]`; the source only slices off an
ASCII prefix, for which byte and character counts coincide. -/
def goDrop (s : String) (n : Nat) : String :=
  String.mk (s.toList.drop n)

/-- Models Go `strings.EqualFold` (ASCII case folding, see `goToLower`). -/
def goEqualFold (a b : String) : Bool :=
  goToLower a = goToLower b

/-- Models Go `strings.Join` via `String.intercalate` (identical semantics). -/
def goJoin (elems : List String) (sep : String) : String :=
  String.intercalate sep elems

/-- Numeric value of a list of decimal digit characters. -/
def digitsVal (ds : List Char) : Nat :=
  ds.foldl (fun a c => 10 * a + (c.toNat - 48)) 0

/-- Models Go `strconv.ParseInt(s, 10, 64)`: an optional single sign followed
by one or more decimal digits, rejected when the value falls outside the
`int64` range.  (Go rejects underscores for an explicit base, as modelled.) -/
def goParseInt (s : String) : Option Int :=
  match s.toList with
  | [] => none
  | c :: rest =>
    let signed : Bool × List Char :=
      if c = '-' then (true, rest)
      else if c = '+' then (false, rest)
      else (false, c :: rest)
    let ds := signed.2
    if ds.isEmpty then none
    else if ds.all Char.isDigit then
      let v : Int := if signed.1 then -(digitsVal ds : Int) else (digitsVal ds : Int)
      if v < -(2 ^ 63) || (2 ^ 63 - 1 : Int) < v then none else some v
    else none

/-- Models the composition `int64(v)` of `v, err := strconv.ParseFloat(s, 64)`
with `err == nil`, for the plain decimal forms `[sign] digits [. digits]`
(Go additionally accepts exponent, hexadecimal and inf/nan spellings, which
never reach this code path in practice and are modelled as parse failures;
the overflow bound approximates the float64 range, and truncation toward zero
is exact whenever the integer magnitude stays below 2^53). -/
def goParseFloatTruncInt (s : String) : Option Int :=
  match s.toList with
  | [] => none
  | c :: rest =>
    let signed : Bool × List Char :=
      if c = '-' then (true, rest)
      else if c = '+' then (false, rest)
      else (false, c :: rest)
    let parts := signed.2.span Char.isDigit
    let mk : Option Int :=
      if digitsVal parts.1 < 10 ^ 309 then
        some (if signed.1 then -(digitsVal parts.1 : Int) else (digitsVal parts.1 : Int))
      else none
    match parts.2 with
    | [] => if parts.1.isEmpty then none else mk
    | '.' :: fp =>
      if fp.all Char.isDigit && !(parts.1.isEmpty && fp.isEmpty) then mk else none
    | _ => none

/-! ## Archived-state classification (`computeArchived`, `parseArchivedValue`)

`sql.NullString` is `Option String` (`none` for `Valid == false`; an invalid
`NullString` carries the empty Go string, so `Option.getD "" · ` models the
`.String` accessor), and `sql.NullInt64` is `Option Int`. -/

/-- Models `parseArchivedValue` from the source: trim the marker, drop a
case-insensitive "ts" prefix, then try integer and float parsing; `none`
replaces the Go `(0, false)` failure result. -/
def parseArchivedValue (value : Option String) : Option Int :=
  match value with
  | none => none
  | some s =>
    let raw := goTrim s
    if raw = "" then none
    else
      let raw := if goStartsWith (goToLower raw) "ts" then goDrop raw 2 else raw
      if raw = "" then none
      else
        match goParseInt raw with
        | some parsed => some parsed
        | none => goParseFloatTruncInt raw

/-- Models `computeArchived` from the source, deciding the archived flag from
the archived-through marker, the ordering-sequence marker, the latest message
order and the last-message timestamp (all nullable). -/
def computeArchived (archivedUpto archivedUpToOrder : Option String)
    (latestHsOrder lastMessage : Option Int) : Bool :=
  match parseArchivedValue archivedUpToOrder, latestHsOrder with
  | some order, some latest => decide (latest ≤ order)
  | _, _ =>
    match parseArchivedValue archivedUpto with
    | some ts =>
      if 1000000000000 < ts then
        match lastMessage with
        | some lm => decide (lm ≤ ts)
        | none => true
      else
        match latestHsOrder with
        | some latest => decide (latest ≤ ts)
        | none => true
    | none =>
      match archivedUpto with
      | some s => decide (goTrim s ≠ "")
      | none => false

/-! ## Threads, labels and display names -/

/-- Models the `Participant` struct. -/
structure Participant where
  id : String
  name : String
  isSelf : Bool
deriving DecidableEq

/-- Models the `Thread` struct; `time.Time` fields are `Option Int`
milliseconds (`none` for Go's zero time) and the Go `Type` field is renamed
`threadType`. -/
structure Thread where
  id : String := ""
  accountID : String := ""
  title : String := ""
  name : String := ""
  threadType : String := ""
  displayName : String := ""
  lastActivity : Option Int := none
  lastMessage : Option Int := none
  lastOpen : Option Int := none
  isUnread : Bool := false
  isMarkedUnread : Bool := false
  isLowPriority : Bool := false
  isArchived : Bool := false
  unreadCount : Int := 0
  unreadMentions : Int := 0
  totalMessages : Int := 0
  tags : List String := []
  participants : List Participant := []
deriving DecidableEq

/-- Models the `ThreadLabel` constant `LabelAll`. -/
def LabelAll : String := "all"

/-- Models the `ThreadLabel` constant `LabelInbox`. -/
def LabelInbox : String := "inbox"

/-- Models the `ThreadLabel` constant `LabelArchive`. -/
def LabelArchive : String := "archive"

/-- Models the `ThreadLabel` constant `LabelFavourite`. -/
def LabelFavourite : String := "favourite"

/-- Models the `ThreadLabel` constant `LabelUnread`. -/
def LabelUnread : String := "unread"

/-- Models `containsTag` from the source (case-insensitive membership via
`strings.EqualFold`). -/
def containsTag (tags : List String) (target : String) : Bool :=
  if tags.isEmpty then false
  else tags.any (fun tag => goEqualFold tag target)

/-- Models `shouldIncludeThread` from the source: the low-priority gate
followed by the per-label switch (unknown labels are included, as in the Go
default case). -/
def shouldIncludeThread (label : String) (thread : Thread) (archived : Bool)
    (includeLowPriority : Bool) : Bool :=
  if !includeLowPriority && thread.isLowPriority then false
  else if label = LabelInbox then
    if containsTag thread.tags "favourite" then true
    else if archived then false
    else true
  else if label = LabelArchive then
    if !archived then false
    else if containsTag thread.tags "favourite" then false
    else true
  else if label = LabelFavourite then containsTag thread.tags "favourite"
  else if label = LabelUnread then thread.isUnread || thread.isMarkedUnread
  else if label = LabelAll then true
  else true

/-- Names of the non-self participants, in participant order, as built by the
loop at the top of `displayName`. -/
def nonSelfNames (participants : List Participant) : List String :=
  (participants.filter (fun p => !p.isSelf)).map (fun p => p.name)

/-- Outcome of the bridge branch of `displayName`: the resolver argument
models `s.bridge` (`none` when the bridge is nil) and its function result
models `LookupDMName` returning `err == nil && ok` with the given name
(`none` for a miss or an error, which the source ignores alike). -/
def bridgeResult (resolver : Option (String → String → Option String))
    (thread : Thread) : Option String :=
  match resolver with
  | some lookup =>
    if thread.threadType = "single" || thread.threadType = "dm" then
      lookup thread.id thread.accountID
    else none
  | none => none

/-- Models `displayName` from the source: title, then name, then the bridge
lookup for direct threads, then participant-derived names. -/
def displayName (resolver : Option (String → String → Option String))
    (thread : Thread) (participants : List Participant) : String :=
  if thread.title ≠ "" then thread.title
  else if thread.name ≠ "" then thread.name
  else
    match bridgeResult resolver thread with
    | some n => n
    | none =>
      let nonSelf := nonSelfNames participants
      if nonSelf.isEmpty then "(unknown)"
      else if thread.threadType = "single" || thread.threadType = "dm" then nonSelf.headD ""
      else if nonSelf.length ≤ 3 then goJoin nonSelf ", "
      else goJoin (nonSelf.take 3) ", " ++ " +" ++ toString (nonSelf.length - 3)

/-- Display-name resolution exactly as claim C5 words it: title, name, the
resolver for direct conversations, then the joined non-self participant names
truncated to 3 plus a remainder count, with "(unknown)" when none are known.
This definition follows the claim's sentence, for comparison against the
source-derived `displayName`. -/
def displayNameClaimC5 (resolver : Option (String → String → Option String))
    (thread : Thread) (participants : List Participant) : String :=
  if thread.title ≠ "" then thread.title
  else if thread.name ≠ "" then thread.name
  else
    match bridgeResult resolver thread with
    | some n => n
    | none =>
      let nonSelf := nonSelfNames participants
      if nonSelf.isEmpty then "(unknown)"
      else if nonSelf.length ≤ 3 then goJoin nonSelf ", "
      else goJoin (nonSelf.take 3) ", " ++ " +" ++ toString (nonSelf.length - 3)

/-! ## Time model, thread rows and the listing pipeline

Go `time.Time` is modelled as `Option Int` (milliseconds since the Unix
epoch, `none` for the zero `time.Time{}`); the DB only ever stores
epoch-millisecond values, all of which lie after Go's zero time (year 1), so
`timeAfter (some a) none = true` is faithful. -/

/-- Models `t.After(u)` on the `Option Int` time model. -/
def timeAfter : Option Int → Option Int → Bool
  | none, _ => false
  | some _, none => true
  | some a, some b => decide (b < a)

/-- Models `maxTime` from the source: fold the inputs keeping the latest,
starting from the zero time. -/
def maxTime (times : List (Option Int)) : Option Int :=
  times.foldl (fun latest t => if timeAfter t latest then t else latest) none

/-- Models `unixMillis` from the source: millisecond 0 maps to the zero time. -/
def unixMillis (ms : Int) : Option Int :=
  if ms = 0 then none else some ms

/-- Models `unixMillisOrZero` from the source: a NULL or 0 column value maps
to the zero time. -/
def unixMillisOrZero (value : Option Int) : Option Int :=
  match value with
  | none => none
  | some v => if v = 0 then none else some v

/-- Models the source constant `defaultLimit`. -/
def defaultLimit : Int := 50

/-- Models the source constant `defaultContextWindow` (one hour) in
milliseconds. -/
def defaultContextWindow : Int := 3600000

/-- Row of the thread listing query: one scanned result row of
`ListThreads`/`GetThread` (nullable columns are `Option`; `tags` carries the
output of `parseTags`, whose JSON helper lives outside the embedded core and
whose value the claims only pass through). -/
structure ThreadRow where
  threadID : String := ""
  accountID : Option String := none
  ts : Int := 0
  title : Option String := none
  name : Option String := none
  threadType : Option String := none
  isUnread : Option Int := none
  isMarkedUnread : Option Int := none
  isLowPriority : Option Int := none
  unreadCount : Option Int := none
  unreadMentions : Option Int := none
  archivedUpto : Option String := none
  archivedUpToOrder : Option String := none
  tags : List String := []
  lastOpen : Option Int := none
  lastMessage : Option Int := none
  latestHsOrder : Option Int := none
  totalMessages : Option Int := none
deriving DecidableEq

/-- Candidate last-activity values of a row, in the order `maxTime` receives
them in the source. -/
def activityCands (r : ThreadRow) : List (Option Int) :=
  [unixMillisOrZero r.lastMessage, unixMillisOrZero r.lastOpen, unixMillis r.ts]

/-- Models the shared row-to-`Thread` assembly of `ListThreads` and
`GetThread` (everything up to and including the archived computation; the
stats handling, filtering and enrichment differ per caller and are applied on
top). -/
def mkThreadBase (r : ThreadRow) : Thread :=
  { id := r.threadID
    accountID := r.accountID.getD ""
    title := goTrim (r.title.getD "")
    name := goTrim (r.name.getD "")
    threadType := goTrim (r.threadType.getD "")
    isUnread := r.isUnread.elim false (fun v => decide (v ≠ 0))
    isMarkedUnread := r.isMarkedUnread.elim false (fun v => decide (v ≠ 0))
    isLowPriority := r.isLowPriority.elim false (fun v => decide (v ≠ 0))
    unreadCount := r.unreadCount.getD 0
    unreadMentions := r.unreadMentions.getD 0
    tags := r.tags
    lastOpen := unixMillisOrZero r.lastOpen
    lastMessage := unixMillisOrZero r.lastMessage
    lastActivity := maxTime (activityCands r)
    isArchived := computeArchived r.archivedUpto r.archivedUpToOrder
      r.latestHsOrder r.lastMessage }

/-- Models `ThreadListOptions`. -/
structure ThreadListOptions where
  days : Int := 0
  limit : Int := 0
  accountID : String := ""
  label : String := ""
  includeLowPriority : Bool := false
  withParticipants : Bool := false
  withStats : Bool := false

/-- Models the SQL expression
`COALESCE(lastMessageTime, lastOpenTime, t.timestamp)` that `ListThreads`
orders by. -/
def sqlOrderKey (r : ThreadRow) : Int :=
  match r.lastMessage with
  | some v => v
  | none =>
    match r.lastOpen with
    | some v => v
    | none => r.ts

/-- Rows the `ListThreads` SQL query returns, in order: account and day
filters, `ORDER BY COALESCE(...) DESC`, then `LIMIT`.  The day cutoff
(`time.Now().AddDate(0, 0, -days).UnixMilli()`) is passed in as a value since
calendar arithmetic is outside the model, and the ORDER BY is modelled as a
stable sort on the descending key. -/
def listThreadsOrderedRows (rows : List ThreadRow) (opts : ThreadListOptions)
    (cutoff : Int) : List ThreadRow :=
  let limit := if opts.limit ≤ 0 then defaultLimit else opts.limit
  let selected := rows.filter (fun r =>
    (opts.accountID = "" || r.accountID = some opts.accountID) &&
    (opts.days ≤ 0 || cutoff ≤ r.ts))
  (selected.insertionSort (fun a b => sqlOrderKey b ≤ sqlOrderKey a)).take limit.toNat

/-- Models `ListThreads`: assemble each returned row, apply the stats option,
filter by label in memory, then attach participants and the display name.
`participantsOf` stands for the `participantsByRoom` query and `resolver` for
the bridge (as in `displayName`). -/
def listThreadsModel (participantsOf : String → List Participant)
    (resolver : Option (String → String → Option String))
    (rows : List ThreadRow) (opts : ThreadListOptions) (cutoff : Int) : List Thread :=
  let label := if opts.label = "" then LabelAll else opts.label
  let kept := (listThreadsOrderedRows rows opts cutoff).filterMap (fun r =>
    let t := mkThreadBase r
    let t := if opts.withStats then { t with totalMessages := r.totalMessages.getD 0 }
      else { t with lastMessage := none, lastOpen := none }
    if shouldIncludeThread label t t.isArchived opts.includeLowPriority then some t
    else none)
  kept.map (fun t =>
    let parts := participantsOf t.id
    { t with
        displayName := displayName resolver t parts
        participants := if opts.withParticipants then parts else [] })

/-- Models `GetThread` applied to the single row matching the requested ID:
stats are attached only when requested, participants and the display name are
always resolved, and stats fields are zeroed again before returning when
`withStats` is false. -/
def getThreadModel (participantsOf : String → List Participant)
    (resolver : Option (String → String → Option String))
    (row : ThreadRow) (withStats : Bool) : Thread :=
  let t := mkThreadBase row
  let t := if withStats then { t with totalMessages := row.totalMessages.getD 0 } else t
  let parts := participantsOf row.threadID
  let t := { t with participants := parts }
  let t := { t with displayName := displayName resolver t parts }
  if !withStats then { t with lastMessage := none, lastOpen := none, totalMessages := 0 }
  else t

/-! ## Message rows, search and context extraction -/

/-- Row of the `mx_room_messages` table as the search and context queries see
it; `bodyText` models `json_extract(message, '$.text')` (NULL when the key is
absent), which is all the LIKE fallback reads of the raw payload. -/
structure MsgRow where
  id : Int := 0
  eventID : String := ""
  roomID : String := ""
  senderContactID : String := ""
  timestamp : Int := 0
  isSentByMe : Bool := false
  msgType : String := ""
  textContent : String := ""
  bodyText : Option String := none
  isDeleted : Bool := false
deriving DecidableEq

/-- Models `SearchOptions`; `window` is the `time.Duration` in milliseconds.
The `Format` field only affects how each returned row's text is rendered, not
which rows are returned, and is handled by the text-renderer model. -/
structure SearchOptions where
  query : String := ""
  threadID : String := ""
  days : Int := 0
  limit : Int := 0
  accountID : String := ""
  context : Int := 0
  window : Int := 0

/-- Scanned search row: the message columns plus the `rank` column.  The
source's `Score` is a float64; the only concrete rank this model needs is the
literal `0 as rank` of the fallback query, so the score is carried as `Int`. -/
structure SearchMatch where
  row : MsgRow
  score : Int
deriving DecidableEq

/-- Models the SQL fragment `isDeleted = 0 AND type NOT IN
('HIDDEN','REACTION')` shared by the message queries. -/
def msgVisible (m : MsgRow) : Bool :=
  !m.isDeleted && !(m.msgType = "HIDDEN") && !(m.msgType = "REACTION")

/-- Models `json_extract(message,'$.text') LIKE '%query%'`: NULL never
matches, otherwise a substring test; SQLite's LIKE is ASCII-case-insensitive,
and queries containing LIKE wildcards are outside the model. -/
def sqlLikeMatch (body : Option String) (q : String) : Bool :=
  match body with
  | none => false
  | some s => goContains (goToLower s) (goToLower q)

/-- Rows of the fallback (`useFTS == false`) query built by `buildQuery`: the
LIKE predicate and visibility filter, the optional conversation, account and
day-range filters, `0 as rank`, ordered by `rank ASC, timestamp DESC` (all
ranks equal, hence timestamp descending) and limited.  `threads` carries
(threadID, accountID) pairs for the account subquery and `cutoff` the
precomputed day-range bound. -/
def likeScan (msgs : List MsgRow) (threads : List (String × String))
    (opts : SearchOptions) (cutoff : Int) : List SearchMatch :=
  let limit := if opts.limit ≤ 0 then defaultLimit else opts.limit
  let selected := msgs.filter (fun m =>
    sqlLikeMatch m.bodyText opts.query && msgVisible m &&
    (opts.threadID = "" || m.roomID = opts.threadID) &&
    (opts.accountID = "" || threads.any (fun t => t.1 = m.roomID && t.2 = opts.accountID)) &&
    (opts.days ≤ 0 || cutoff ≤ m.timestamp))
  ((selected.insertionSort (fun a b => b.timestamp ≤ a.timestamp)).take limit.toNat).map
    (fun m => ⟨m, 0⟩)

/-- Store state as `SearchMessages` observes it: the message and thread
tables, whether `HasFTS` reported the index table present, and the outcome of
executing the FTS `MATCH` query (kept abstract, since the full-text index's
match semantics and its failure modes live outside the embedded source). -/
structure SearchDB where
  msgs : List MsgRow
  threads : List (String × String)
  hasFTS : Bool
  ftsOutcome : Except String (List SearchMatch)

/-- Models `isFTSError` from the source: substring tests on the lowercased
error message. -/
def isFTSError (e : String) : Bool :=
  goContains (goToLower e) "no such module: fts5" ||
    goContains (goToLower e) "no such table: mx_room_messages_fts"

/-- Models the query-execution portion of `SearchMessages` (blank-query
guard, FTS-vs-LIKE choice, and the retry of the LIKE query when the FTS query
fails with an FTS-unavailable error).  The enrichment that follows in the
source (thread names, sender names, context) never changes which rows are
returned or their scores. -/
def searchMessagesRows (db : SearchDB) (opts : SearchOptions) (cutoff : Int) :
    Except String (List SearchMatch) :=
  if goTrim opts.query = "" then .error "search query is required"
  else if db.hasFTS then
    match db.ftsOutcome with
    | .ok rows => .ok rows
    | .error e =>
      if isFTSError e then .ok (likeScan db.msgs db.threads opts cutoff)
      else .error e
  else .ok (likeScan db.msgs db.threads opts cutoff)

/-- Models the window defaulting at the top of `fetchContextMessages`. -/
def contextWindowMillis (optsWindow : Int) : Int :=
  if optsWindow = 0 then defaultContextWindow else optsWindow

/-- Rows of the context query of `fetchContextMessages`: same conversation as
the match, timestamp within the symmetric window, visible, ordered timestamp
ascending. -/
def fetchWindowRows (msgs : List MsgRow) (matchRow : MsgRow) (w : Int) : List MsgRow :=
  (msgs.filter (fun m =>
    m.roomID = matchRow.roomID &&
    (matchRow.timestamp - w ≤ m.timestamp && m.timestamp ≤ matchRow.timestamp + w) &&
    msgVisible m)).insertionSort (fun a b => a.timestamp ≤ b.timestamp)

/-- Body of the copy loop at the end of `trimContext`: indices `start ≤ i <
stop` in order, skipping the match index. -/
def trimLoop (messages : List MsgRow) (start stop idx : Nat) : List MsgRow :=
  (List.range' start (stop - start)).filterMap
    (fun i => if i = idx then none else messages[i]?)

/-- Models `trimContext` from the source: locate the first message with the
match's row id, clamp `[idx-context, idx+context]` to the list and copy it
over skipping the match itself; the list is returned unchanged when the
count is not positive, the list is empty, or the match is absent.  (Go's
`start := idx - context; if start < 0 { start = 0 }` is Nat subtraction
here, and `context.toNat` is exact past the `context <= 0` guard.) -/
def trimContext (messages : List MsgRow) (matchID : Int) (context : Int) : List MsgRow :=
  if context ≤ 0 || messages.isEmpty then messages
  else
    match messages.findIdx? (fun m => decide (m.id = matchID)) with
    | none => messages
    | some idx =>
      trimLoop messages (idx - context.toNat)
        (min (idx + context.toNat + 1) messages.length) idx

/-- Models `fetchContextMessages` at the row level: fetch the window, then
trim it when a context count was requested.  (The per-row enrichment with
sender and thread names does not change the returned sequence of rows.) -/
def fetchContextMessagesModel (msgs : List MsgRow) (matchRow : MsgRow)
    (opts : SearchOptions) : List MsgRow :=
  let window := fetchWindowRows msgs matchRow (contextWindowMillis opts.window)
  if 0 < opts.context then trimContext window matchRow.id opts.context
  else window

/-! ## Text renderer (`ResolveMessageText` and helpers)

The raw payload is decoded by `encoding/json`; the embedded renderer only
inspects the decoded value's top-level kind (JSON object / JSON string /
anything else) and, for objects, whether individual fields hold strings, so
the JSON value model keeps exactly that much structure.  The decode step
itself is Go library code outside the source: its outcome is passed alongside
the raw text (`none` models a decode error), and concrete instantiations pair
a raw text with its actual decode result. -/

/-- Decoded JSON value as the renderer observes it: a string, an object
(field list; `encoding/json` produces distinct keys), or any other kind
(null, boolean, number, array — indistinguishable to the renderer). -/
inductive Jval where
  | str (s : String)
  | obj (fields : List (String × Jval))
  | other

/-- Models the message-format constant `FormatPlain`. -/
def FormatPlain : String := "plain"

/-- Models the message-format constant `FormatRich`. -/
def FormatRich : String := "rich"

/-- Models `firstString` from the source: probe the keys in order and return
the first string-typed value trimmed (keys holding non-strings are skipped,
a present empty string is returned as-is). -/
def firstString (payload : List (String × Jval)) : List String → String
  | [] => ""
  | k :: ks =>
    match payload.lookup k with
    | some (Jval.str s) => goTrim s
    | _ => firstString payload ks

/-- Models `formatWithOptionalText` from the source. -/
def formatWithOptionalText (pre text : String) : String :=
  if goTrim text = "" then pre
  else pre ++ " " ++ goTrim text

/-- Models `fallbackMessageText` from the source. -/
def fallbackMessageText (value msgType : String) (rich : Bool) : String :=
  if msgType = "TEXT" then value
  else if rich = false then value
  else if goTrim value ≠ "" ∧ msgType ≠ "" then
    formatWithOptionalText ("[" ++ msgType ++ "]") value
  else "[" ++ (if msgType = "" then "MESSAGE" else msgType) ++ "]"

/-- Models `renderPayload` from the source (the Go `switch` as an if-chain). -/
def renderPayload (payload : List (String × Jval)) (msgType : String) (rich : Bool) :
    String :=
  let text := firstString payload ["body", "text"]
  if rich = false ∨ msgType = "TEXT" then text
  else if msgType = "IMAGE" then formatWithOptionalText "[Image]" text
  else if msgType = "VIDEO" then formatWithOptionalText "[Video]" text
  else if msgType = "AUDIO" then
    (if firstString payload ["url"] ≠ "" then
      "[Audio: " ++ firstString payload ["url"] ++ "]"
    else "[Audio message]")
  else if msgType = "FILE" then
    (if firstString payload ["filename", "name"] ≠ "" ∧ firstString payload ["url"] ≠ "" then
      "[File: " ++ firstString payload ["filename", "name"] ++ " - " ++
        firstString payload ["url"] ++ "]"
    else if firstString payload ["filename", "name"] ≠ "" then
      "[File: " ++ firstString payload ["filename", "name"] ++ "]"
    else if firstString payload ["url"] ≠ "" then
      "[File: " ++ firstString payload ["url"] ++ "]"
    else "[File]")
  else if msgType = "LOCATION" then
    (if firstString payload ["geo_uri", "geoUri"] ≠ "" then
      "[Location: " ++ firstString payload ["geo_uri", "geoUri"] ++ "]"
    else "[Location]")
  else if msgType = "CONTACT" then
    (if firstString payload ["display_name", "displayName", "name"] ≠ "" then
      "[Contact: " ++ firstString payload ["display_name", "displayName", "name"] ++ "]"
    else "[Contact]")
  else if msgType = "STICKER" then
    (if firstString payload ["url"] ≠ "" then
      "[Sticker: " ++ firstString payload ["url"] ++ "]"
    else "[Sticker]")
  else fallbackMessageText text msgType rich

/-- Models `extractMessageText` from the source; `parsed` is the
`json.Unmarshal` outcome for `rawMessage`. -/
def extractMessageText (rawMessage : String) (parsed : Option Jval)
    (msgType : String) (rich : Bool) : String :=
  if goTrim rawMessage = "" then ""
  else
    let upperType := goToUpper (goTrim msgType)
    let upperType := if upperType = "" then "TEXT" else upperType
    match parsed with
    | none => fallbackMessageText rawMessage upperType rich
    | some (Jval.obj fields) => renderPayload fields upperType rich
    | some (Jval.str value) =>
      if upperType = "TEXT" then value
      else fallbackMessageText value upperType rich
    | some Jval.other => fallbackMessageText rawMessage upperType rich

/-- Models `ResolveMessageText` from the source; any format other than
`FormatPlain` takes the rich branch, as in Go. -/
def ResolveMessageText (rawMessage : String) (parsed : Option Jval)
    (msgType textContent : String) (format : String) : String :=
  if format = FormatPlain then
    if goTrim textContent ≠ "" then textContent
    else extractMessageText rawMessage parsed msgType false
  else
    let rich := extractMessageText rawMessage parsed msgType true
    if goTrim rich ≠ "" then rich
    else textContent

/-! ## Bridge name lookup (`LookupDMName`) -/

/-- Models the `BridgeLookup` struct: the platform → store-path map and the
per-conversation name cache, both Go maps modelled as association lists
(lookup takes the first match; the code only inserts keys it has just found
absent, so entries stay unique). -/
structure BridgeLookup where
  platformDBs : List (String × String)
  cache : List (String × String)

/-- Models `normalizePlatform` from the source. -/
def normalizePlatform (platform : String) : String :=
  let p := goToLower (goTrim platform)
  if goStartsWith p "local-" then goDrop p 6 else p

/-- Loop over all platform stores at the bottom of `LookupDMName`: query each
store in order until one reports a hit, counting queries; an error aborts the
scan.  `q path roomID` models `queryBridgeName` (err, or (name, ok)). -/
def bridgeScan (q : String → String → Except String (String × Bool))
    (roomID : String) : List (String × String) → Nat → Except String (Option String) × Nat
  | [], n => (Except.ok none, n)
  | (_, path) :: rest, n =>
    match q path roomID with
    | Except.error e => (Except.error e, n + 1)
    | Except.ok (name, ok) =>
      if ok then (Except.ok (some name), n + 1)
      else bridgeScan q roomID rest (n + 1)

/-- Models `LookupDMName` from the source, returning the Go result triple
(`(name, found)` or an error), the updated lookup state, and the number of
secondary-store queries issued (the call-count guard of the spec).  The
`b == nil` receiver check is dropped (the state is always present here); map
iteration order in the fallback scan is the list order. -/
def lookupDMName (b : BridgeLookup)
    (q : String → String → Except String (String × Bool))
    (roomID accountID : String) :
    Except String (String × Bool) × BridgeLookup × Nat :=
  if b.platformDBs.isEmpty then (Except.ok ("", false), b, 0)
  else
    match b.cache.lookup roomID with
    | some cached =>
      if cached = "" then (Except.ok ("", false), b, 0)
      else (Except.ok (cached, true), b, 0)
    | none =>
      let candidate :=
        if accountID ≠ "" then (b.platformDBs.lookup (normalizePlatform accountID)).getD ""
        else ""
      if candidate ≠ "" then
        match q candidate roomID with
        | Except.error e => (Except.error e, b, 1)
        | Except.ok (name, ok) =>
          (Except.ok (name, ok), { b with cache := (roomID, name) :: b.cache }, 1)
      else
        match bridgeScan q roomID b.platformDBs 0 with
        | (Except.error e, n) => (Except.error e, b, n)
        | (Except.ok (some name), n) =>
          (Except.ok (name, true), { b with cache := (roomID, name) :: b.cache }, n)
        | (Except.ok none, n) =>
          (Except.ok ("", false), { b with cache := (roomID, "") :: b.cache }, n)

end BeeperCLI

namespace BeeperCLI

/-- C1: computeArchived applies its three rules in priority order, first
applicable rule winning: (1) a parsed ordering-sequence marker with a known
latest order compares latest ≤ marker; (2) otherwise a parsed archived-through
marker is treated as a millisecond timestamp above the 10^12 threshold
(compared against the last-message timestamp, archived when that is unknown)
and as an ordering value otherwise (compared against the latest order,
archived when that is unknown); (3) otherwise the thread is archived exactly
when the raw archived-through field is present and non-blank. -/
theorem computeArchived_priority_rules (a o : Option String) (lo lm : Option Int) :
    (∀ n l, parseArchivedValue o = some n → lo = some l →
      computeArchived a o lo lm = decide (l ≤ n)) ∧
    ((parseArchivedValue o = none ∨ lo = none) → ∀ t, parseArchivedValue a = some t →
      computeArchived a o lo lm =
        (if 1000000000000 < t then lm.elim true (fun m => decide (m ≤ t))
         else lo.elim true (fun l => decide (l ≤ t)))) ∧
    ((parseArchivedValue o = none ∨ lo = none) → parseArchivedValue a = none →
      computeArchived a o lo lm = (a.elim false (fun s => decide (goTrim s ≠ "")))) := by
  refine ⟨?_, ?_, ?_⟩
  · intro n l ho hlo
    simp only [computeArchived, ho, hlo]
  · intro h t ha
    rcases h with h | h
    · cases lo with
      | none =>
        simp only [computeArchived, h, ha]
        cases lm <;> rfl
      | some l =>
        simp only [computeArchived, h, ha]
        cases lm <;> rfl
    · subst h
      cases ho : parseArchivedValue o with
      | none =>
        simp only [computeArchived, ho, ha]
        cases lm <;> rfl
      | some n =>
        simp only [computeArchived, ho, ha]
        cases lm <;> rfl
  · intro h ha
    have base : ∀ x : Option String,
        (match x with
          | some s => decide (goTrim s ≠ "")
          | none => false) = x.elim false (fun s => decide (goTrim s ≠ "")) := by
      intro x; cases x <;> rfl
    rcases h with h | h
    · cases lo with
      | none => simp only [computeArchived, h, ha]; exact base a
      | some l => simp only [computeArchived, h, ha]; exact base a
    · subst h
      cases ho : parseArchivedValue o with
      | none => simp only [computeArchived, ho, ha]; exact base a
      | some n => simp only [computeArchived, ho, ha]; exact base a

/-- Witness for C1: on a concrete row carrying an ordering-sequence marker
"5", latest order 3, an (ignored) timestamp-style archived-through marker and
no last message, rule 1 applies and the thread is archived. -/
theorem computeArchived_priority_rules_witness :
    computeArchived (some "ts1700000000000") (some "5") (some 3) none = true := by
  have h := (computeArchived_priority_rules (some "ts1700000000000") (some "5")
    (some 3) none).1 5 3 (by decide) rfl
  rw [h]
  decide

theorem shouldIncludeThread_inbox_eval (t : Thread) (a i : Bool) :
    shouldIncludeThread LabelInbox t a i =
      if !i && t.isLowPriority then false
      else if containsTag t.tags "favourite" then true
      else if a then false
      else true := rfl

theorem shouldIncludeThread_archive_eval (t : Thread) (a i : Bool) :
    shouldIncludeThread LabelArchive t a i =
      if !i && t.isLowPriority then false
      else if !a then false
      else if containsTag t.tags "favourite" then false
      else true := rfl

theorem shouldIncludeThread_favourite_eval (t : Thread) (a i : Bool) :
    shouldIncludeThread LabelFavourite t a i =
      if !i && t.isLowPriority then false
      else containsTag t.tags "favourite" := rfl

/-- C2: past the low-priority gate, a favourite-tagged thread is always in the
inbox label and never in the archive label, a non-favourite thread is in inbox
iff not archived and in archive iff archived, and the archive and favourite
label results are disjoint. -/
theorem shouldIncludeThread_favourite_rules (thread : Thread) (archived ilp : Bool)
    (hgate : (!ilp && thread.isLowPriority) = false) :
    (containsTag thread.tags "favourite" = true →
      shouldIncludeThread LabelInbox thread archived ilp = true ∧
      shouldIncludeThread LabelArchive thread archived ilp = false) ∧
    (containsTag thread.tags "favourite" = false →
      shouldIncludeThread LabelInbox thread archived ilp = !archived ∧
      shouldIncludeThread LabelArchive thread archived ilp = archived) ∧
    ¬(shouldIncludeThread LabelArchive thread archived ilp = true ∧
      shouldIncludeThread LabelFavourite thread archived ilp = true) := by
  rw [shouldIncludeThread_inbox_eval, shouldIncludeThread_archive_eval,
    shouldIncludeThread_favourite_eval, hgate]
  refine ⟨fun hfav => ?_, fun hfav => ?_, fun h => ?_⟩
  · rw [hfav]; cases archived <;> simp
  · rw [hfav]; cases archived <;> simp
  · rcases h with ⟨h1, h2⟩
    simp only [Bool.false_eq_true, if_false] at h1 h2
    rw [h2] at h1
    cases archived <;> simp at h1

/-- Witness for C2: a favourite-tagged archived thread passes the gate, is in
the inbox label and is excluded from the archive label. -/
theorem shouldIncludeThread_favourite_rules_witness :
    shouldIncludeThread LabelInbox { tags := ["favourite"] } true false = true ∧
    shouldIncludeThread LabelArchive { tags := ["favourite"] } true false = false :=
  (shouldIncludeThread_favourite_rules { tags := ["favourite"] } true false
    (by decide)).1 (by decide)

/-- C5 counterexample: a direct ("dm") thread with two known non-self
participants, no title, no name and no resolver result gets display name "A"
from the source (first non-self participant only), while the claim's stated
priority chain produces the joined "A, B". -/
theorem displayName_claimC5_counterexample :
    displayName none { threadType := "dm" }
        [⟨"a", "A", false⟩, ⟨"b", "B", false⟩] = "A" ∧
    displayNameClaimC5 none { threadType := "dm" }
        [⟨"a", "A", false⟩, ⟨"b", "B", false⟩] = "A, B" ∧
    displayName none { threadType := "dm" }
        [⟨"a", "A", false⟩, ⟨"b", "B", false⟩] ≠
      displayNameClaimC5 none { threadType := "dm" }
        [⟨"a", "A", false⟩, ⟨"b", "B", false⟩] := by
  refine ⟨by decide, by decide, by decide⟩

/-- C5 amended: the resolved display name follows the priority title → name →
resolver result for direct conversations → participant names, where a direct
conversation shows only the first non-self participant name, other
conversations show the non-self names joined and truncated to 3 plus a
remainder count, and "(unknown)" is used when no non-self participant is
known. -/
theorem displayName_resolution_priority
    (resolver : Option (String → String → Option String))
    (thread : Thread) (parts : List Participant) :
    (thread.title ≠ "" → displayName resolver thread parts = thread.title) ∧
    (thread.title = "" → thread.name ≠ "" →
      displayName resolver thread parts = thread.name) ∧
    (∀ n, thread.title = "" → thread.name = "" →
      bridgeResult resolver thread = some n →
      displayName resolver thread parts = n) ∧
    (thread.title = "" → thread.name = "" → bridgeResult resolver thread = none →
      nonSelfNames parts = [] → displayName resolver thread parts = "(unknown)") ∧
    (thread.title = "" → thread.name = "" → bridgeResult resolver thread = none →
      nonSelfNames parts ≠ [] →
      (thread.threadType = "single" || thread.threadType = "dm") = true →
      displayName resolver thread parts = (nonSelfNames parts).headD "") ∧
    (thread.title = "" → thread.name = "" → bridgeResult resolver thread = none →
      nonSelfNames parts ≠ [] →
      (thread.threadType = "single" || thread.threadType = "dm") = false →
      (nonSelfNames parts).length ≤ 3 →
      displayName resolver thread parts = goJoin (nonSelfNames parts) ", ") ∧
    (thread.title = "" → thread.name = "" → bridgeResult resolver thread = none →
      nonSelfNames parts ≠ [] →
      (thread.threadType = "single" || thread.threadType = "dm") = false →
      3 < (nonSelfNames parts).length →
      displayName resolver thread parts =
        goJoin ((nonSelfNames parts).take 3) ", " ++ " +" ++
          toString ((nonSelfNames parts).length - 3)) := by
  refine ⟨?_, ?_, ?_, ?_, ?_, ?_, ?_⟩
  · intro h; simp [displayName, h]
  · intro h h2; simp [displayName, h, h2]
  · intro n h h2 hb; simp [displayName, h, h2, hb]
  · intro h h2 hb hn
    simp [displayName, h, h2, hb, hn, List.isEmpty_iff]
  · intro h h2 hb hn hd
    simp only [displayName, h, h2, hb, ne_eq, not_true_eq_false, if_false]
    rw [if_neg (by simp [List.isEmpty_iff, hn]), if_pos hd]
  · intro h h2 hb hn hd hlen
    simp only [displayName, h, h2, hb, ne_eq, not_true_eq_false, if_false]
    rw [if_neg (by simp [List.isEmpty_iff, hn]), if_neg (by simp [hd]),
      if_pos (by exact_mod_cast hlen)]
  · intro h h2 hb hn hd hlen
    simp only [displayName, h, h2, hb, ne_eq, not_true_eq_false, if_false]
    rw [if_neg (by simp [List.isEmpty_iff, hn]), if_neg (by simp [hd]),
      if_neg (by omega)]

theorem timeAfter_irrefl (a : Option Int) : timeAfter a a = false := by
  cases a <;> simp [timeAfter]

theorem timeAfter_trans {a b c : Option Int} (h1 : timeAfter a b = true)
    (h2 : timeAfter b c = true) : timeAfter a c = true := by
  cases a <;> cases b <;> cases c <;> (simp_all [timeAfter]; try omega)

theorem timeAfter_neg_trans {a b c : Option Int} (h1 : timeAfter a b = false)
    (h2 : timeAfter b c = false) : timeAfter a c = false := by
  cases a <;> cases b <;> cases c <;> (simp_all [timeAfter]; try omega)

theorem maxTime_foldl_spec (l : List (Option Int)) : ∀ acc : Option Int,
    (l.foldl (fun latest t => if timeAfter t latest then t else latest) acc = acc ∨
      l.foldl (fun latest t => if timeAfter t latest then t else latest) acc ∈ l) ∧
    timeAfter acc (l.foldl (fun latest t => if timeAfter t latest then t else latest) acc)
      = false ∧
    ∀ x ∈ l,
      timeAfter x (l.foldl (fun latest t => if timeAfter t latest then t else latest) acc)
        = false := by
  induction l with
  | nil => intro acc; simp [timeAfter_irrefl]
  | cons h t ih =>
    intro acc
    simp only [List.foldl_cons]
    by_cases hha : timeAfter h acc = true
    · rw [if_pos hha]
      obtain ⟨hmem, hacc, hall⟩ := ih h
      refine ⟨?_, ?_, ?_⟩
      · rcases hmem with hm | hm
        · exact Or.inr (by rw [hm]; exact List.mem_cons_self h t)
        · exact Or.inr (List.mem_cons_of_mem h hm)
      · cases hc : timeAfter acc
          (t.foldl (fun latest u => if timeAfter u latest then u else latest) h) with
        | false => rfl
        | true =>
          have := timeAfter_trans hha hc
          rw [this] at hacc
          exact hacc
      · intro x hx
        rcases List.mem_cons.mp hx with hx | hx
        · rw [hx]; exact hacc
        · exact hall x hx
    · rw [if_neg hha]
      obtain ⟨hmem, hacc, hall⟩ := ih acc
      rw [Bool.not_eq_true] at hha
      refine ⟨?_, hacc, ?_⟩
      · rcases hmem with hm | hm
        · exact Or.inl hm
        · exact Or.inr (List.mem_cons_of_mem h hm)
      · intro x hx
        rcases List.mem_cons.mp hx with hx | hx
        · rw [hx]; exact timeAfter_neg_trans hha hacc
        · exact hall x hx

theorem maxTime_spec (l : List (Option Int)) :
    (maxTime l ∈ l ∨ (maxTime l = none ∧ ∀ x ∈ l, x = none)) ∧
    ∀ x ∈ l, timeAfter x (maxTime l) = false := by
  obtain ⟨hmem, _, hall⟩ := maxTime_foldl_spec l none
  refine ⟨?_, hall⟩
  rcases hmem with hm | hm
  · refine Or.inr ⟨hm, fun x hx => ?_⟩
    have := hall x hx
    rw [hm] at this
    cases x with
    | none => rfl
    | some v => simp [timeAfter] at this
  · exact Or.inl hm

/-- C7 counterexample: on two concrete rows, thread A has last-message 100 but
last-open 999 (so `LastActivity` 999), thread B has last-message 500 and no
last-open (so `LastActivity` 500).  The SQL `ORDER BY
COALESCE(lastMessageTime, lastOpenTime, timestamp) DESC` lists B (key 500)
before A (key 100), so the returned threads are not ordered by last-activity
descending: the second result's last activity (999) is strictly after the
first's (500). -/
theorem listThreads_lastActivity_order_counterexample :
    (listThreadsModel (fun _ => []) none
        [{ threadID := "A", ts := 50, lastOpen := some 999, lastMessage := some 100 },
          { threadID := "B", ts := 1, lastMessage := some 500 }]
        {} 0).map Thread.lastActivity = [some 500, some 999] ∧
    timeAfter (some 999) (some 500) = true := by decide

/-- C7 amended: ListThreads orders its result rows descending by
`COALESCE(last-message, last-open, metadata timestamp)` — the first known of
the three, not their maximum — while each thread's LastActivity field is the
maximum of last-message, last-open and metadata timestamp under the
time-order in which a zero/absent value never beats a known one. -/
theorem listThreads_order_and_lastActivity (rows : List ThreadRow)
    (opts : ThreadListOptions) (cutoff : Int) :
    List.Pairwise (fun a b => sqlOrderKey b ≤ sqlOrderKey a)
      (listThreadsOrderedRows rows opts cutoff) ∧
    ∀ r : ThreadRow,
      ((mkThreadBase r).lastActivity ∈ activityCands r ∨
        ((mkThreadBase r).lastActivity = none ∧ ∀ x ∈ activityCands r, x = none)) ∧
      ∀ x ∈ activityCands r, timeAfter x ((mkThreadBase r).lastActivity) = false := by
  constructor
  · unfold listThreadsOrderedRows
    apply List.Pairwise.take
    haveI : IsTotal ThreadRow (fun a b => sqlOrderKey b ≤ sqlOrderKey a) :=
      ⟨fun a b => le_total _ _⟩
    haveI : IsTrans ThreadRow (fun a b => sqlOrderKey b ≤ sqlOrderKey a) :=
      ⟨fun a b c h1 h2 => le_trans h2 h1⟩
    exact List.sorted_insertionSort _ _
  · intro r
    have : (mkThreadBase r).lastActivity = maxTime (activityCands r) := rfl
    rw [this]
    exact maxTime_spec (activityCands r)

/-- C10: GetThread with stats suppressed returns the same thread as with
stats, except that the three stats fields (last message, last open, total
messages) are zeroed; archived state, display name, last activity, tags,
participants and the unread/low-priority flags are computed from the full row
either way. -/
theorem getThread_withStats_frame (participantsOf : String → List Participant)
    (resolver : Option (String → String → Option String)) (row : ThreadRow) :
    getThreadModel participantsOf resolver row false =
      { getThreadModel participantsOf resolver row true with
          lastMessage := none, lastOpen := none, totalMessages := 0 } := rfl

theorem range'_filterMap_getElem {α : Type} (l : List α) :
    ∀ n a, a + n ≤ l.length →
      (List.range' a n).filterMap (fun i => l[i]?) = (l.drop a).take n := by
  intro n
  induction n with
  | zero => intro a h; simp
  | succ n ih =>
    intro a h
    have ha : a < l.length := by omega
    simp only [List.range'_succ, List.filterMap_cons, List.getElem?_eq_getElem ha]
    rw [ih (a + 1) (by omega)]
    rw [List.drop_eq_getElem_cons ha, List.take_succ_cons]

theorem filterMap_skip_head {α : Type} (f : Nat → Option α) (a n : Nat)
    (hf : f a = none) :
    (List.range' a (n + 1)).filterMap f = (List.range' (a + 1) n).filterMap f := by
  rw [List.range'_succ, List.filterMap_cons, hf]

theorem trimLoop_eq_slices {l : List MsgRow} {idx c : Nat} (hidx : idx < l.length)
    (hc : 0 < c) :
    trimLoop l (idx - c) (min (idx + c + 1) l.length) idx =
      (l.take idx).drop (idx - c) ++ (l.drop (idx + 1)).take c := by
  have hstart : idx - c ≤ idx := Nat.sub_le idx c
  have hstop1 : idx < min (idx + c + 1) l.length := by omega
  have hstople : min (idx + c + 1) l.length ≤ l.length := min_le_right _ _
  unfold trimLoop
  have hsplit : List.range' (idx - c) (min (idx + c + 1) l.length - (idx - c)) =
      List.range' (idx - c) (idx - (idx - c)) ++
        List.range' idx (min (idx + c + 1) l.length - idx) := by
    have happ := List.range'_append (idx - c) (idx - (idx - c))
      (min (idx + c + 1) l.length - idx) 1
    rw [show idx - c + 1 * (idx - (idx - c)) = idx by omega] at happ
    rw [happ]
    congr 1
    omega
  rw [hsplit, List.filterMap_append]
  have h1 : (List.range' (idx - c) (idx - (idx - c))).filterMap
      (fun i => if i = idx then none else l[i]?) = (l.take idx).drop (idx - c) := by
    rw [List.filterMap_congr (g := fun i => l[i]?) ?hcong]
    case hcong =>
      intro i hi
      rw [List.mem_range'_1] at hi
      rw [if_neg (by omega)]
    rw [range'_filterMap_getElem l (idx - (idx - c)) (idx - c) (by omega)]
    rw [List.drop_take]
  have h2 : (List.range' idx (min (idx + c + 1) l.length - idx)).filterMap
      (fun i => if i = idx then none else l[i]?) = (l.drop (idx + 1)).take c := by
    rw [show min (idx + c + 1) l.length - idx = (min (idx + c + 1) l.length - idx - 1) + 1
      by omega]
    rw [filterMap_skip_head (fun i => if i = idx then none else l[i]?) idx _ (by simp)]
    rw [List.filterMap_congr (g := fun i => l[i]?) ?hcong2]
    case hcong2 =>
      intro i hi
      rw [List.mem_range'_1] at hi
      rw [if_neg (by omega)]
    rw [range'_filterMap_getElem l _ (idx + 1) (by omega)]
    rw [List.take_eq_take]
    simp only [List.length_drop]
    omega
  rw [h1, h2]

theorem trimContext_found (l : List MsgRow) (mid : Int) (c : Int) (idx : Nat)
    (hc : 0 < c) (hfound : l.findIdx? (fun m => decide (m.id = mid)) = some idx) :
    trimContext l mid c =
      (l.take idx).drop (idx - c.toNat) ++ (l.drop (idx + 1)).take c.toNat := by
  obtain ⟨hlen, -, -⟩ := List.findIdx?_eq_some_iff_getElem.mp hfound
  have hne : l.isEmpty = false := by
    cases l with
    | nil => simp at hlen
    | cons a t => rfl
  unfold trimContext
  rw [if_neg (by simp [hne]; omega), hfound]
  exact trimLoop_eq_slices hlen (by omega)

theorem trimContext_notFound (l : List MsgRow) (mid : Int) (c : Int)
    (hnf : l.findIdx? (fun m => decide (m.id = mid)) = none) :
    trimContext l mid c = l := by
  unfold trimContext
  by_cases hg : (decide (c ≤ 0) || l.isEmpty) = true
  · rw [if_pos hg]
  · rw [if_neg hg, hnf]

/-- C4: the fetched context window holds exactly visible (non-deleted,
non-hidden, non-reaction) messages of the match's conversation within the
symmetric time window (one hour when none is given), ordered oldest-first;
with a positive context count N and the match present at position `idx` of
the window, the result is the up-to-N messages immediately before `idx` and
the up-to-N immediately after it, the match itself excluded; with the match
absent from the window, the window is returned unmodified. -/
theorem fetchContext_window_and_trim (msgs : List MsgRow) (matchRow : MsgRow)
    (opts : SearchOptions) :
    (∀ m ∈ fetchWindowRows msgs matchRow (contextWindowMillis opts.window),
      m.roomID = matchRow.roomID ∧ m.isDeleted = false ∧
      m.msgType ≠ "HIDDEN" ∧ m.msgType ≠ "REACTION" ∧
      matchRow.timestamp - contextWindowMillis opts.window ≤ m.timestamp ∧
      m.timestamp ≤ matchRow.timestamp + contextWindowMillis opts.window) ∧
    List.Pairwise (fun a b => a.timestamp ≤ b.timestamp)
      (fetchWindowRows msgs matchRow (contextWindowMillis opts.window)) ∧
    (opts.window = 0 → contextWindowMillis opts.window = 3600000) ∧
    (∀ idx, 0 < opts.context →
      (fetchWindowRows msgs matchRow (contextWindowMillis opts.window)).findIdx?
          (fun m => decide (m.id = matchRow.id)) = some idx →
      fetchContextMessagesModel msgs matchRow opts =
        ((fetchWindowRows msgs matchRow (contextWindowMillis opts.window)).take idx).drop
            (idx - opts.context.toNat) ++
          ((fetchWindowRows msgs matchRow (contextWindowMillis opts.window)).drop
            (idx + 1)).take opts.context.toNat) ∧
    (0 < opts.context →
      (fetchWindowRows msgs matchRow (contextWindowMillis opts.window)).findIdx?
          (fun m => decide (m.id = matchRow.id)) = none →
      fetchContextMessagesModel msgs matchRow opts =
        fetchWindowRows msgs matchRow (contextWindowMillis opts.window)) := by
  refine ⟨?_, ?_, fun h => by simp [contextWindowMillis, h, defaultContextWindow], ?_, ?_⟩
  · intro m hm
    unfold fetchWindowRows at hm
    rw [List.mem_insertionSort] at hm
    rw [List.mem_filter] at hm
    obtain ⟨-, hp⟩ := hm
    simp only [Bool.and_eq_true, decide_eq_true_eq, msgVisible, Bool.not_eq_true',
      decide_eq_false_iff_not] at hp
    tauto
  · unfold fetchWindowRows
    haveI : IsTotal MsgRow (fun a b => a.timestamp ≤ b.timestamp) :=
      ⟨fun a b => le_total _ _⟩
    haveI : IsTrans MsgRow (fun a b => a.timestamp ≤ b.timestamp) :=
      ⟨fun a b c h1 h2 => le_trans h1 h2⟩
    exact List.sorted_insertionSort _ _
  · intro idx hc hfound
    unfold fetchContextMessagesModel
    rw [if_pos hc]
    exact trimContext_found _ _ _ idx hc hfound
  · intro hc hnf
    unfold fetchContextMessagesModel
    rw [if_pos hc]
    exact trimContext_notFound _ _ _ hnf

/-- Witness for C4: three visible messages of one conversation at timestamps
100/200/300, searching around the middle one with context count 1, yield
exactly the neighbours and drop the match. -/
theorem fetchContext_window_and_trim_witness :
    fetchContextMessagesModel
        [{ id := 1, roomID := "r", timestamp := 100 },
          { id := 2, roomID := "r", timestamp := 200 },
          { id := 3, roomID := "r", timestamp := 300 }]
        { id := 2, roomID := "r", timestamp := 200 }
        { context := 1 } =
      [{ id := 1, roomID := "r", timestamp := 100 },
        { id := 3, roomID := "r", timestamp := 300 }] := by
  have h := (fetchContext_window_and_trim
    [{ id := 1, roomID := "r", timestamp := 100 },
      { id := 2, roomID := "r", timestamp := 200 },
      { id := 3, roomID := "r", timestamp := 300 }]
    { id := 2, roomID := "r", timestamp := 200 }
    { context := 1 }).2.2.2.1 1 (by decide) (by decide)
  rw [h]
  decide

/-- C3: when the query is non-blank, the FTS table was reported present and
the FTS query fails with an FTS-unavailable error, SearchMessages returns the
LIKE fallback rows successfully (no error reaches the caller), and every
fallback row has relevance score zero, matches the query as a substring of
the message body, is visible, and respects the conversation, account,
day-range and limit filters of the original request. -/
theorem searchMessages_fts_fallback (db : SearchDB) (opts : SearchOptions)
    (cutoff : Int) (e : String)
    (hq : goTrim opts.query ≠ "") (hfts : db.hasFTS = true)
    (herr : db.ftsOutcome = .error e) (hftserr : isFTSError e = true) :
    searchMessagesRows db opts cutoff = .ok (likeScan db.msgs db.threads opts cutoff) ∧
    (∀ m ∈ likeScan db.msgs db.threads opts cutoff,
      m.score = 0 ∧
      sqlLikeMatch m.row.bodyText opts.query = true ∧
      msgVisible m.row = true ∧
      (opts.threadID ≠ "" → m.row.roomID = opts.threadID) ∧
      (opts.accountID ≠ "" →
        db.threads.any (fun t => t.1 = m.row.roomID && t.2 = opts.accountID) = true) ∧
      (0 < opts.days → cutoff ≤ m.row.timestamp)) ∧
    (likeScan db.msgs db.threads opts cutoff).length ≤
      (if opts.limit ≤ 0 then defaultLimit else opts.limit).toNat := by
  refine ⟨?_, ?_, ?_⟩
  · simp [searchMessagesRows, hq, hfts, herr, hftserr]
  · intro m hm
    unfold likeScan at hm
    rw [List.mem_map] at hm
    obtain ⟨r, hr, hmk⟩ := hm
    have hr' := List.mem_of_mem_take hr
    rw [List.mem_insertionSort, List.mem_filter] at hr'
    obtain ⟨-, hp⟩ := hr'
    simp only [Bool.and_eq_true, Bool.or_eq_true, decide_eq_true_eq] at hp
    refine ⟨by rw [← hmk], by rw [← hmk]; exact hp.1.1.1.1, by rw [← hmk]; exact hp.1.1.1.2,
      ?_, ?_, ?_⟩
    · intro hth
      rcases hp.1.1.2 with h | h
      · exact absurd h hth
      · rw [← hmk]; exact h
    · intro hac
      rcases hp.1.2 with h | h
      · exact absurd h hac
      · rw [← hmk]; exact h
    · intro hd
      rcases hp.2 with h | h
      · omega
      · rw [← hmk]; exact h
  · unfold likeScan
    rw [List.length_map]
    calc (((db.msgs.filter _).insertionSort _).take _).length
        ≤ (if opts.limit ≤ 0 then defaultLimit else opts.limit).toNat := by
          rw [List.length_take]; exact min_le_left _ _

/-- Witness for C3: a single-message store whose FTS query fails with "no
such module: fts5" falls back to the LIKE scan and returns the matching row
with score zero. -/
theorem searchMessages_fts_fallback_witness :
    searchMessagesRows
        { msgs := [{ id := 1, roomID := "r", timestamp := 5,
                     bodyText := some "say Hello there", msgType := "TEXT" }],
          threads := [], hasFTS := true,
          ftsOutcome := Except.error "no such module: fts5" }
        { query := "hello" } 0 =
      Except.ok [⟨{ id := 1, roomID := "r", timestamp := 5,
                    bodyText := some "say Hello there", msgType := "TEXT" }, 0⟩] := by
  have h := (searchMessages_fts_fallback
    { msgs := [{ id := 1, roomID := "r", timestamp := 5,
                 bodyText := some "say Hello there", msgType := "TEXT" }],
      threads := [], hasFTS := true,
      ftsOutcome := Except.error "no such module: fts5" }
    { query := "hello" } 0 "no such module: fts5"
    (by decide) rfl rfl (by decide)).1
  rw [h]
  exact congrArg Except.ok (by decide)

theorem extractMessageText_text_mode_eq (raw : String) (parsed : Option Jval)
    (b1 b2 : Bool) :
    extractMessageText raw parsed "TEXT" b1 = extractMessageText raw parsed "TEXT" b2 := by
  unfold extractMessageText
  by_cases hraw : goTrim raw = ""
  · rw [if_pos hraw, if_pos hraw]
  · rw [if_neg hraw, if_neg hraw]
    cases parsed with
    | none => cases b1 <;> cases b2 <;> rfl
    | some j =>
      cases j with
      | str v => cases b1 <;> cases b2 <;> rfl
      | obj fields => cases b1 <;> cases b2 <;> rfl
      | other => cases b1 <;> cases b2 <;> rfl

/-- C6 counterexample: a TEXT message whose pre-rendered plain-text field is a
lone blank (" ") and whose raw payload is empty renders as "" in plain mode
but as " " in rich mode, so rich and plain disagree on a TEXT message. -/
theorem resolveMessageText_rich_plain_counterexample :
    ResolveMessageText "" none "TEXT" " " FormatRich = " " ∧
    ResolveMessageText "" none "TEXT" " " FormatPlain = "" ∧
    ResolveMessageText "" none "TEXT" " " FormatRich ≠
      ResolveMessageText "" none "TEXT" " " FormatPlain := by
  exact ⟨by decide, by decide, by decide⟩

/-- C6 amended: for TEXT messages, rich mode prefers the non-blank extracted
payload text and falls back to the pre-rendered field, while plain mode
prefers the non-blank pre-rendered field and falls back to the extracted
text; rich equals plain precisely unless the two values differ while having
the same blankness (both trim-blank or both non-blank). -/
theorem resolveMessageText_text_rich_vs_plain (raw : String) (parsed : Option Jval)
    (tc : String) :
    (goTrim (extractMessageText raw parsed "TEXT" true) ≠ "" →
      ResolveMessageText raw parsed "TEXT" tc FormatRich =
        extractMessageText raw parsed "TEXT" true) ∧
    (goTrim (extractMessageText raw parsed "TEXT" true) = "" →
      ResolveMessageText raw parsed "TEXT" tc FormatRich = tc) ∧
    (goTrim tc ≠ "" → ResolveMessageText raw parsed "TEXT" tc FormatPlain = tc) ∧
    (goTrim tc = "" → ResolveMessageText raw parsed "TEXT" tc FormatPlain =
      extractMessageText raw parsed "TEXT" true) ∧
    (ResolveMessageText raw parsed "TEXT" tc FormatRich =
        ResolveMessageText raw parsed "TEXT" tc FormatPlain ↔
      ((goTrim tc = "" ↔ goTrim (extractMessageText raw parsed "TEXT" true) = "") →
        tc = extractMessageText raw parsed "TEXT" true)) := by
  have hEF := extractMessageText_text_mode_eq raw parsed false true
  have hrich : ResolveMessageText raw parsed "TEXT" tc FormatRich =
      (if goTrim (extractMessageText raw parsed "TEXT" true) ≠ "" then
        extractMessageText raw parsed "TEXT" true else tc) := by
    unfold ResolveMessageText
    rw [if_neg (by decide)]
  have hplain : ResolveMessageText raw parsed "TEXT" tc FormatPlain =
      (if goTrim tc ≠ "" then tc else extractMessageText raw parsed "TEXT" true) := by
    unfold ResolveMessageText
    rw [if_pos rfl, hEF]
  refine ⟨fun h => ?_, fun h => ?_, fun h => ?_, fun h => ?_, ?_⟩
  · rw [hrich, if_pos h]
  · rw [hrich, if_neg (by simp [h])]
  · rw [hplain, if_pos h]
  · rw [hplain, if_neg (by simp [h])]
  · rw [hrich, hplain]
    by_cases htc : goTrim tc = "" <;>
      by_cases hE : goTrim (extractMessageText raw parsed "TEXT" true) = ""
    · simp [htc, hE]
    · simp [htc, hE]
    · simp [htc, hE]
    · simp only [ne_eq, htc, hE, not_false_iff, if_true, if_pos]
      constructor
      · intro heq _; exact heq.symm
      · intro himp
        exact (himp (by simp [htc, hE])).symm

/-- Witness for C6 amended: with an empty raw payload (blank extracted text)
and pre-rendered field "hello", rich mode falls back to the pre-rendered
field. -/
theorem resolveMessageText_text_rich_vs_plain_witness :
    ResolveMessageText "" none "TEXT" "hello" FormatRich = "hello" := by
  have h := (resolveMessageText_text_rich_vs_plain "" none "hello").2.1 (by decide)
  exact h

/-- C9: rich rendering of a FILE payload shows "[File: name - url]" when both
a filename and a URL are present, degrades to the present one alone, and to
"[File]" when neither is there; plain rendering of the same payload with an
empty pre-rendered plain-text field and no body/text value is the empty
string — no placeholder leaks into plain mode. -/
theorem renderPayload_file_and_plain (p : List (String × Jval)) (raw : String) :
    (firstString p ["filename", "name"] ≠ "" → firstString p ["url"] ≠ "" →
      renderPayload p "FILE" true =
        "[File: " ++ firstString p ["filename", "name"] ++ " - " ++
          firstString p ["url"] ++ "]") ∧
    (firstString p ["filename", "name"] ≠ "" → firstString p ["url"] = "" →
      renderPayload p "FILE" true =
        "[File: " ++ firstString p ["filename", "name"] ++ "]") ∧
    (firstString p ["filename", "name"] = "" → firstString p ["url"] ≠ "" →
      renderPayload p "FILE" true = "[File: " ++ firstString p ["url"] ++ "]") ∧
    (firstString p ["filename", "name"] = "" → firstString p ["url"] = "" →
      renderPayload p "FILE" true = "[File]") ∧
    (goTrim raw ≠ "" → firstString p ["body", "text"] = "" →
      ResolveMessageText raw (some (Jval.obj p)) "FILE" "" FormatPlain = "") := by
  have hfile : renderPayload p "FILE" true =
      (if firstString p ["filename", "name"] ≠ "" ∧ firstString p ["url"] ≠ "" then
        "[File: " ++ firstString p ["filename", "name"] ++ " - " ++
          firstString p ["url"] ++ "]"
      else if firstString p ["filename", "name"] ≠ "" then
        "[File: " ++ firstString p ["filename", "name"] ++ "]"
      else if firstString p ["url"] ≠ "" then
        "[File: " ++ firstString p ["url"] ++ "]"
      else "[File]") := by
    unfold renderPayload
    rw [if_neg (by decide), if_neg (by decide), if_neg (by decide), if_neg (by decide),
      if_pos rfl]
  refine ⟨fun h1 h2 => ?_, fun h1 h2 => ?_, fun h1 h2 => ?_, fun h1 h2 => ?_,
    fun hraw hbody => ?_⟩
  · rw [hfile, if_pos ⟨h1, h2⟩]
  · rw [hfile, if_neg (by simp [h2]), if_pos h1]
  · rw [hfile, if_neg (by simp [h1]), if_neg (by simp [h1]), if_pos h2]
  · rw [hfile, if_neg (by simp [h1]), if_neg (by simp [h1]), if_neg (by simp [h2])]
  · unfold ResolveMessageText
    rw [if_pos rfl, if_neg (by decide)]
    unfold extractMessageText
    rw [if_neg hraw]
    show renderPayload p "FILE" false = ""
    unfold renderPayload
    rw [if_pos (Or.inl rfl)]
    exact hbody

/-- Witness for C9: the payload of the repository's own renderer test,
holding both a filename and a URL, rendered rich and plain. -/
theorem renderPayload_file_and_plain_witness :
    renderPayload
        [("url", Jval.str "https://example.com/file.pdf"),
          ("filename", Jval.str "report.pdf")] "FILE" true =
      "[File: report.pdf - https://example.com/file.pdf]" ∧
    ResolveMessageText
        "\x7b\"url\":\"https://example.com/file.pdf\",\"filename\":\"report.pdf\"\x7d"
        (some (Jval.obj [("url", Jval.str "https://example.com/file.pdf"),
          ("filename", Jval.str "report.pdf")]))
        "FILE" "" FormatPlain = "" := by
  have h := renderPayload_file_and_plain
    [("url", Jval.str "https://example.com/file.pdf"),
      ("filename", Jval.str "report.pdf")]
    "\x7b\"url\":\"https://example.com/file.pdf\",\"filename\":\"report.pdf\"\x7d"
  constructor
  · rw [h.1 (by decide) (by decide)]
    decide
  · exact h.2.2.2.2 (by decide) (by decide)

/-- C8: a lookup for a conversation already recorded in the cache (including
a recorded negative, empty result) returns the cached outcome with zero
secondary-store queries and an unchanged state; a lookup that did consult
stores (query count positive) and returned without error has recorded its
resulting name — the empty string for a miss — in the cache. -/
theorem lookupDMName_cache_rules (b : BridgeLookup)
    (q : String → String → Except String (String × Bool))
    (roomID accountID : String) :
    (∀ cached, b.platformDBs ≠ [] → b.cache.lookup roomID = some cached →
      lookupDMName b q roomID accountID =
        (Except.ok (if cached = "" then ("", false) else (cached, true)), b, 0)) ∧
    (∀ res b' n, b.cache.lookup roomID = none →
      lookupDMName b q roomID accountID = (Except.ok res, b', n) → 0 < n →
      b'.cache.lookup roomID = some res.1) := by
  constructor
  · intro cached hne hcached
    unfold lookupDMName
    rw [if_neg (by simp [hne]), hcached]
    by_cases hc : cached = ""
    · simp [hc]
    · simp [hc]
  · intro res b' n hmiss heq hn
    unfold lookupDMName at heq
    by_cases hemp : b.platformDBs.isEmpty = true
    · rw [if_pos hemp] at heq
      have hn0 : (0 : Nat) = n := congrArg (fun x => x.2.2) heq
      omega
    · rw [if_neg hemp, hmiss] at heq
      by_cases hcand :
          (if accountID ≠ "" then
            (b.platformDBs.lookup (normalizePlatform accountID)).getD ""
          else "") ≠ ""
      · rw [if_pos hcand] at heq
        cases hq : q (if accountID ≠ "" then
            (b.platformDBs.lookup (normalizePlatform accountID)).getD ""
          else "") roomID with
        | error e =>
          rw [hq] at heq
          exact absurd (congrArg Prod.fst heq) (by simp)
        | ok pr =>
          rw [hq] at heq
          have hres : pr = res := by
            have := congrArg Prod.fst heq
            simpa using this
          have hb' : b' = { b with cache := (roomID, pr.1) :: b.cache } := by
            have := congrArg (fun x => x.2.1) heq
            simp at this
            exact this.symm
          rw [hb', ← hres]
          simp [List.lookup]
      · rw [if_neg hcand] at heq
        cases hscan : bridgeScan q roomID b.platformDBs 0 with
        | mk r n' =>
          rw [hscan] at heq
          cases r with
          | error e =>
            exact absurd (congrArg Prod.fst heq) (by simp)
          | ok found =>
            cases found with
            | none =>
              have hres : ("", false) = res := by simpa using congrArg Prod.fst heq
              have hb' : b' = { b with cache := (roomID, "") :: b.cache } := by
                have := congrArg (fun x => x.2.1) heq
                simp at this
                exact this.symm
              rw [hb', ← hres]
              simp [List.lookup]
            | some name =>
              have hres : (name, true) = res := by simpa using congrArg Prod.fst heq
              have hb' : b' = { b with cache := (roomID, name) :: b.cache } := by
                have := congrArg (fun x => x.2.1) heq
                simp at this
                exact this.symm
              rw [hb', ← hres]
              simp [List.lookup]

/-- Witness for C8: with one discovered platform store and a cached name for
"room1", a lookup returns the cached name, issues zero store queries even
though the store oracle would fail, and leaves the state unchanged. -/
theorem lookupDMName_cache_rules_witness :
    lookupDMName
        { platformDBs := [("whatsapp", "/bridges/whatsapp/megabridge.db")],
          cache := [("room1", "Alice")] }
        (fun _ _ => Except.error "store should not be opened") "room1" "whatsapp" =
      (Except.ok ("Alice", true),
        { platformDBs := [("whatsapp", "/bridges/whatsapp/megabridge.db")],
          cache := [("room1", "Alice")] }, 0) := by
  have h := (lookupDMName_cache_rules
    { platformDBs := [("whatsapp", "/bridges/whatsapp/megabridge.db")],
      cache := [("room1", "Alice")] }
    (fun _ _ => Except.error "store should not be opened") "room1" "whatsapp").1
    "Alice" (by simp) (by simp [List.lookup])
  rw [h]
  rfl

/-- Witness for C5 amended: a group thread with four non-self participants is
rendered as the first three names plus a remainder count. -/
theorem displayName_resolution_priority_witness :
    displayName none { threadType := "group" }
        [⟨"a", "A", false⟩, ⟨"b", "B", false⟩, ⟨"c", "C", false⟩, ⟨"d", "D", false⟩] =
      "A, B, C +1" := by
  have h := (displayName_resolution_priority none { threadType := "group" }
    [⟨"a", "A", false⟩, ⟨"b", "B", false⟩, ⟨"c", "C", false⟩, ⟨"d", "D", false⟩]).2.2.2.2.2.2
  rw [h rfl rfl rfl (by decide) (by decide) (by decide)]
  decide

end BeeperCLI
